import Mathlib

/-!
Shallow embedding of the put-opportunity classification pipeline of
`frontend/src/App.tsx` (the variant whose classification enum is
`best / opportunity / candidate_strong / candidate / neighbor`).

JavaScript numbers are modelled as rationals (`ℚ`); `number | null`
fields as `Option ℚ`.  Strings stay `String`.  The React state updates
of `fetchAll` are modelled as a pure function from the list of
per-expiration fetch results to the final `(records, error)` state.
-/

namespace PutFinder

/-- The backend `type` tag of a row: `"opportunity" | "neighbor"`. -/
inductive RowType where
  | opportunity
  | neighbor
  deriving DecidableEq, Repr

/-- The display classification enum of `App.tsx`. -/
inductive Classification where
  | best
  | opportunity
  | candidate_strong
  | candidate
  | neighbor
  deriving DecidableEq, Repr

/-- `interface BaseOptionRow` of `App.tsx`. -/
structure BaseOptionRow where
  option_ticker : String
  strike_price : ℚ
  last : Option ℚ
  bid : Option ℚ := none
  ask : Option ℚ := none
  put_mid : Option ℚ := none
  delta : Option ℚ := none
  iv : Option ℚ := none
  greeks_source : Option String := none
  volume : Option ℤ
  open_interest : Option ℤ
  distance_to_lower_band : Option ℚ := none
  credit_pct : Option ℚ := none
  deriving DecidableEq, Repr

/-- `interface OpportunityRow extends BaseOptionRow`; the field `rowType`
models the source's `type` tag. -/
structure OpportunityRow extends BaseOptionRow where
  meets_band : Bool
  meets_delta : Bool
  meets_credit : Bool
  rowType : RowType
  deriving DecidableEq, Repr

/-- `interface IncompleteRow extends BaseOptionRow`. -/
structure IncompleteRow extends BaseOptionRow where
  reason_missing : String
  deriving DecidableEq, Repr

/-- `interface ClassifiedRow extends OpportunityRow`. -/
structure ClassifiedRow extends OpportunityRow where
  classification : Classification
  score : String
  rowClass : String
  deriving DecidableEq, Repr

/-- `interface RollingResponse` of `App.tsx`. -/
structure RollingResponse where
  status : String
  ticker : String
  expiration_date : String
  atm_strike : ℚ
  em : ℚ
  spot_approx : ℚ
  lower_band : ℚ
  delta_range : ℚ × ℚ
  credit_pct_range : ℚ × ℚ
  count : ℤ
  opportunities : List OpportunityRow
  neighbors : List OpportunityRow
  incomplete : List IncompleteRow
  deriving DecidableEq, Repr

/-- `function classifyRow(row: OpportunityRow): Classification` of `App.tsx`:
neighbors are always `neighbor`, a row outside the band is forced to
`neighbor`, a full match is `opportunity`, exactly one of delta/credit gives
`candidate_strong`, band only gives `candidate`. -/
def classifyRow (row : OpportunityRow) : Classification :=
  if row.rowType = RowType.neighbor then
    Classification.neighbor
  else if !row.meets_band then
    Classification.neighbor
  else if row.meets_delta && row.meets_credit then
    Classification.opportunity
  else if row.meets_delta != row.meets_credit then
    Classification.candidate_strong
  else
    Classification.candidate

/-- `function scoreForClassification(c: Classification): string` of `App.tsx`:
`best → "★"`, `opportunity → "✓"`, every other classification gets the empty
score cell. -/
def scoreForClassification : Classification → String
  | Classification.best => "★"
  | Classification.opportunity => "✓"
  | _ => ""

/-- `function rowClassForClassification(c: Classification): string` of
`App.tsx`. -/
def rowClassForClassification : Classification → String
  | Classification.best => "row-best"
  | Classification.opportunity => "row-best"
  | Classification.candidate_strong => "row-opportunity"
  | Classification.candidate => "row-candidate"
  | Classification.neighbor => "row-neighbor"

/-! ## Expiration-date list (`buildExpirationList`)

The source parses `base` with `base.split("-")`, converts the three parts
with `Number(...)`, rejects falsy components (`0` or `NaN`), builds a UTC
timestamp with `Date.UTC(y, m - 1, d)` and steps it by `7 * i` days with
`setUTCDate`, finally re-formatting with `getUTCFullYear` /
`getUTCMonth` / `getUTCDate` and 2-digit zero padding.

`Number(component)` is modelled by the full ECMAScript
`StringNumericLiteral` grammar (whitespace trimming, optional sign,
decimal literals with fraction and exponent, `0x`/`0b`/`0o` integer
literals, `Infinity`), with `JSNum` standing for the result (`NaN`,
`±Infinity`, or a finite value).  `Date.UTC` truncates its arguments
toward zero (`ToIntegerOrInfinity` in `MakeDay`/`MakeFullYear`), maps a
truncated year in `0..99` to `1900 + year` (`MakeFullYear`), normalizes
an out-of-range month or day, and when fed an infinite component yields
an invalid date whose `getUTC*` accessors are all `NaN`, so the source
then renders `"NaN-NaN-NaN"`.  Two idealizations remain, stated here
deliberately: finite values are exact rationals (no IEEE-754 double
rounding, no overflow to `Infinity` near `1e308`, no underflow to `0`),
and the `±8.64e15` ms `TimeClip` range limit of `Date` is not modelled. -/

/-- JS `base.split("-")` on the character list of the string: split on every
`'-'`, keeping empty segments. -/
def splitDashAux : List Char → List Char → List (List Char)
  | [], acc => [acc.reverse]
  | c :: rest, acc =>
    if c = '-' then acc.reverse :: splitDashAux rest []
    else splitDashAux rest (c :: acc)

/-- `base.split("-")` of the source. -/
def splitDash (s : String) : List String :=
  (splitDashAux s.data []).map (fun cs => String.mk cs)

/-- The result of JS `Number(...)`: `NaN`, an infinity, or a finite value
(modelled as an exact rational). -/
inductive JSNum where
  | nan
  | posInf
  | negInf
  | val (q : ℚ)
  deriving DecidableEq, Repr

/-- `StrWhiteSpaceChar`: ECMAScript WhiteSpace and LineTerminator code
points (TAB, LF, VT, FF, CR, SP, NBSP, LS, PS, ZWNBSP and the Unicode
Space_Separator block). -/
def isStrWhiteSpace (c : Char) : Bool :=
  [9, 10, 11, 12, 13, 32, 160, 5760, 8232, 8233, 8239, 8287, 12288, 65279].contains c.toNat
    || (8192 ≤ c.toNat && c.toNat ≤ 8202)

/-- Value of a list of ASCII decimal digits. -/
def digitsVal (cs : List Char) : ℕ :=
  cs.foldl (fun acc c => acc * 10 + (c.toNat - 48)) 0

/-- Hex digit value, if any. -/
def hexDigitVal (c : Char) : Option ℕ :=
  if c.isDigit then some (c.toNat - 48)
  else if 'a' ≤ c ∧ c ≤ 'f' then some (c.toNat - 87)
  else if 'A' ≤ c ∧ c ≤ 'F' then some (c.toNat - 55)
  else none

/-- Binary digit value, if any. -/
def binDigitVal (c : Char) : Option ℕ :=
  if c = '0' then some 0 else if c = '1' then some 1 else none

/-- Octal digit value, if any. -/
def octDigitVal (c : Char) : Option ℕ :=
  if '0' ≤ c ∧ c ≤ '7' then some (c.toNat - 48) else none

/-- `NonDecimalIntegerLiteral` after its `0x`/`0b`/`0o` prefix: at least one
digit of the base and nothing else. -/
def parseNonDecimal (b : ℕ) (digitVal : Char → Option ℕ) (cs : List Char) : JSNum :=
  if cs = [] then JSNum.nan
  else
    match cs.foldl (fun acc? c => acc?.bind (fun acc => (digitVal c).map (fun v => acc * b + v)))
        (some 0) with
    | some n => JSNum.val (n : ℚ)
    | none => JSNum.nan

/-- `ExponentPart?` at the end of a decimal literal: empty, or `e`/`E`, an
optional sign and at least one digit, consuming the rest of the input. -/
def parseExp : List Char → Option ℤ
  | [] => some 0
  | c :: rest =>
    if c = 'e' ∨ c = 'E' then
      match rest with
      | '+' :: ds =>
        if ds ≠ [] ∧ ds.all Char.isDigit then some (digitsVal ds) else none
      | '-' :: ds =>
        if ds ≠ [] ∧ ds.all Char.isDigit then some (-(digitsVal ds : ℤ)) else none
      | ds =>
        if ds ≠ [] ∧ ds.all Char.isDigit then some (digitsVal ds) else none
    else none

/-- The finite value `±(mant · 10^scale)`, keeping the common
integer-with-nonnegative-exponent path inside `ℕ`. -/
def jsVal (neg : Bool) (mant : ℕ) (scale : ℤ) : JSNum :=
  let q : ℚ :=
    if 0 ≤ scale then ((mant * 10 ^ scale.toNat : ℕ) : ℚ)
    else (mant : ℚ) / ((10 ^ (-scale).toNat : ℕ) : ℚ)
  JSNum.val (if neg then -q else q)

/-- `StrUnsignedDecimalLiteral`: `Infinity`, `digits [. digits?] exp?` or
`. digits exp?`. -/
def parseUnsignedDec (neg : Bool) (cs : List Char) : JSNum :=
  if cs = "Infinity".data then (if neg then JSNum.negInf else JSNum.posInf)
  else
    let p := cs.span Char.isDigit
    match p.2 with
    | '.' :: rest2 =>
      let p2 := rest2.span Char.isDigit
      if p.1 = [] ∧ p2.1 = [] then JSNum.nan
      else
        match parseExp p2.2 with
        | some e => jsVal neg (digitsVal (p.1 ++ p2.1)) (e - p2.1.length)
        | none => JSNum.nan
    | rest1 =>
      if p.1 = [] then JSNum.nan
      else
        match parseExp rest1 with
        | some e => jsVal neg (digitsVal p.1) e
        | none => JSNum.nan

/-- `StrDecimalLiteral`: optional sign, then an unsigned decimal. -/
def parseSignedDec : List Char → JSNum
  | '+' :: rest => parseUnsignedDec false rest
  | '-' :: rest => parseUnsignedDec true rest
  | cs => parseUnsignedDec false cs

/-- `StrNumericLiteral` on a whitespace-trimmed character list: empty input
is `0`, a `0x`/`0b`/`0o` prefix selects a non-decimal integer literal
(signs are not allowed there), anything else is a signed decimal. -/
def parseStrNumericLiteral : List Char → JSNum
  | [] => JSNum.val 0
  | '0' :: c :: rest =>
    if c = 'x' ∨ c = 'X' then parseNonDecimal 16 hexDigitVal rest
    else if c = 'b' ∨ c = 'B' then parseNonDecimal 2 binDigitVal rest
    else if c = 'o' ∨ c = 'O' then parseNonDecimal 8 octDigitVal rest
    else parseSignedDec ('0' :: c :: rest)
  | cs => parseSignedDec cs

/-- JS `Number(component)`: trim `StrWhiteSpace` on both ends, then parse
the `StrNumericLiteral`. -/
def jsNumber (s : String) : JSNum :=
  parseStrNumericLiteral
    (((s.data.dropWhile isStrWhiteSpace).reverse.dropWhile isStrWhiteSpace).reverse)

/-- JS truthiness of a number: `NaN` and `0` are falsy (`!y` in the
source), infinities and nonzero finite values are truthy. -/
def truthy : JSNum → Bool
  | JSNum.nan => false
  | JSNum.posInf => true
  | JSNum.negInf => true
  | JSNum.val q => decide (q ≠ 0)

/-- `ToIntegerOrInfinity` on a finite value: truncation toward zero. -/
def jsToIntTrunc (q : ℚ) : ℤ :=
  if 0 ≤ q then q.num.fdiv (q.den : ℤ) else -((-q.num).fdiv (q.den : ℤ))

/-- The parsing-and-validation prefix of `buildExpirationList`: the source
falls back to repeating `base` when `parts.length !== 3` or when any of
`Number(yStr)`, `Number(mStr)`, `Number(dStr)` is falsy (`0` or `NaN`).
When all three components are finite and truthy, this returns the triple
`Date.UTC` actually consumes: each value truncated toward zero
(`ToIntegerOrInfinity`).  A truthy infinite component is not a fallback
(see `infinityBase`); components can never be negative because `'-'` does
not survive `splitDash`. -/
def parseBase (base : String) : Option (ℕ × ℕ × ℕ) :=
  match splitDash base with
  | [yStr, mStr, dStr] =>
    match jsNumber yStr, jsNumber mStr, jsNumber dStr with
    | JSNum.val y, JSNum.val m, JSNum.val d =>
      if y ≠ 0 ∧ m ≠ 0 ∧ d ≠ 0 then
        some ((jsToIntTrunc y).toNat, (jsToIntTrunc m).toNat, (jsToIntTrunc d).toNat)
      else none
    | _, _, _ => none
  | _ => none

/-- Whether a JS number is `+Infinity` or `-Infinity`. -/
def isInfinite : JSNum → Bool
  | JSNum.posInf => true
  | JSNum.negInf => true
  | _ => false

/-- A base whose three components are all truthy but at least one is
infinite: the source does not fall back, but `Date.UTC` returns `NaN` and
every formatted element comes out `"NaN-NaN-NaN"`. -/
def infinityBase (base : String) : Bool :=
  match splitDash base with
  | [yStr, mStr, dStr] =>
    truthy (jsNumber yStr) && truthy (jsNumber mStr) && truthy (jsNumber dStr) &&
      (isInfinite (jsNumber yStr) || isInfinite (jsNumber mStr) || isInfinite (jsNumber dStr))
  | _ => false

/-- Days since 1970-01-01 of the civil date `(y, m, 1)` shifted by `d - 1`
days, for `1 ≤ m ≤ 12` (Howard Hinnant's `days_from_civil`); this is the
day count JS `MakeDay(y, m - 1, d)` produces after month normalization. -/
def daysFromCivil (y m d : ℤ) : ℤ :=
  let yAdj := if m ≤ 2 then y - 1 else y
  let era := yAdj.fdiv 400
  let yoe := yAdj - era * 400
  let doy := (153 * (if 2 < m then m - 3 else m + 9) + 2).fdiv 5 + d - 1
  let doe := yoe * 365 + yoe.fdiv 4 - yoe.fdiv 100 + doy
  era * 146097 + doe - 719468

/-- Inverse conversion (Hinnant's `civil_from_days`): the `(year, month,
day)` triple JS `getUTCFullYear/getUTCMonth/getUTCDate` read off a day
count. -/
def civilFromDays (z : ℤ) : ℤ × ℤ × ℤ :=
  let z2 := z + 719468
  let era := z2.fdiv 146097
  let doe := z2 - era * 146097
  let yoe := (doe - doe.fdiv 1460 + doe.fdiv 36524 - doe.fdiv 146096).fdiv 365
  let doy := doe - (365 * yoe + yoe.fdiv 4 - yoe.fdiv 100)
  let mp := (5 * doy + 2).fdiv 153
  let d := doy - (153 * mp + 2).fdiv 5 + 1
  let m := mp + (if mp < 10 then 3 else -9)
  (yoe + era * 400 + (if m ≤ 2 then 1 else 0), m, d)

/-- `Date.UTC(y, m - 1, d)` as a day count: `MakeFullYear` maps a year in
`0..99` to `1900 + year`, and JS normalizes an out-of-range month index
into the year and an out-of-range day of month into the month. -/
def epochDays (y m d : ℕ) : ℤ :=
  let yr : ℤ := if y ≤ 99 then (y : ℤ) + 1900 else (y : ℤ)
  let mi : ℤ := (m : ℤ) - 1
  daysFromCivil (yr + mi.fdiv 12) (mi.emod 12 + 1) 1 + ((d : ℤ) - 1)

/-- `String(n).padStart(2, "0")` for the month/day components. -/
def pad2 (n : ℤ) : String :=
  if n < 10 then "0" ++ toString n else toString n

/-- The `` `${yyyy}-${mm}-${dd}` `` template of the source applied to a day
count. -/
def formatUTCDate (z : ℤ) : String :=
  let ymd := civilFromDays z
  toString ymd.1 ++ "-" ++ pad2 ymd.2.1 ++ "-" ++ pad2 ymd.2.2

/-- `function buildExpirationList(base: string, count: number): string[]` of
`App.tsx`: repeat `base` itself when a component is falsy or the split is
not three parts; format `base + 7*i` days (UTC) for `i = 0, …, count-1` on
finite truthy components; render the invalid-date output `"NaN-NaN-NaN"`
for every step when a truthy component is infinite. -/
def buildExpirationList (base : String) (count : ℕ) : List String :=
  match parseBase base with
  | none =>
    if infinityBase base then List.replicate count "NaN-NaN-NaN"
    else List.replicate count base
  | some (y, m, d) =>
    (List.range count).map (fun (i : ℕ) => formatUTCDate (epochDays y m d + 7 * (i : ℤ)))

/-! ## Per-expiration display pipeline (the body of `records.map` in the
`App` component) -/

/-- `[...data.opportunities, ...(showNeighbors ? data.neighbors : [])]`. -/
def baseRows (data : RollingResponse) (showNeighbors : Bool) : List OpportunityRow :=
  data.opportunities ++ (if showNeighbors then data.neighbors else [])

/-- `baseRows.sort((a, b) => a.strike_price - b.strike_price)`: the stable
ascending sort by strike, modelled with insertion sort. -/
def sortByStrike {α : Type} (strike : α → ℚ) (l : List α) : List α :=
  List.insertionSort (fun a b => strike a ≤ strike b) l

/-- Step 1 of the display pipeline (`prelim`): first-pass classification
with empty `score` and `rowClass`. -/
def prelimRows (sorted : List OpportunityRow) : List ClassifiedRow :=
  sorted.map (fun row =>
    { toOpportunityRow := row
      classification := classifyRow row
      score := ""
      rowClass := "" })

/-- `prelim.filter((r) => r.classification === "opportunity" && r.credit_pct != null)`. -/
def fullMatches (prelim : List ClassifiedRow) : List ClassifiedRow :=
  prelim.filter (fun r =>
    decide (r.classification = Classification.opportunity) && r.credit_pct.isSome)

/-- `xs.length > 0 ? Math.max(...xs) : null` for a list of numbers. -/
def maxOfList : List ℚ → Option ℚ
  | [] => none
  | c :: cs => some (cs.foldl max c)

/-- `maxCredit` of the display pipeline: maximum `credit_pct ?? 0` over the
full matches, `null` when there are none. -/
def maxCredit (prelim : List ClassifiedRow) : Option ℚ :=
  maxOfList ((fullMatches prelim).map (fun r => r.credit_pct.getD 0))

/-- The body of the `prelim.map` producing `rowsWithScore`: promote an
`opportunity` row to `best` when `maxCredit !== null && row.credit_pct !=
null && row.credit_pct === maxCredit`, then fill `score` and `rowClass`. -/
def promoteOne (mc : Option ℚ) (row : ClassifiedRow) : ClassifiedRow :=
  let classification :=
    if row.classification = Classification.opportunity ∧
        mc ≠ none ∧ row.credit_pct ≠ none ∧ row.credit_pct = mc then
      Classification.best
    else
      row.classification
  { row with
      classification := classification
      score := scoreForClassification classification
      rowClass := rowClassForClassification classification }

/-- Step 2 of the display pipeline (`rowsWithScore`). -/
def rowsWithScore (prelim : List ClassifiedRow) : List ClassifiedRow :=
  prelim.map (promoteOne (maxCredit prelim))

/-- The full main-table pipeline for one expiration record. -/
def tableRows (data : RollingResponse) (showNeighbors : Bool) : List ClassifiedRow :=
  rowsWithScore (prelimRows (sortByStrike (fun r => r.strike_price) (baseRows data showNeighbors)))

/-- `[...data.incomplete].sort((a, b) => a.strike_price - b.strike_price)`. -/
def incompleteSorted (data : RollingResponse) : List IncompleteRow :=
  sortByStrike (fun r => r.strike_price) data.incomplete

/-! ## Multi-expiration fetch (`fetchAll`)

The per-expiration fetches are modelled by their outcomes: one
`Except String RollingResponse` per expiration date.  `Promise.all`
rejects as soon as any promise rejects, and the `catch` branch of
`fetchAll` runs `setError(msg); setRecords([])` while the success branch
runs `setRecords(results)` (with `setError(null)` already done). -/

/-- The stored React state `fetchAll` leaves behind. -/
structure FetchState where
  records : List RollingResponse
  error : Option String
  deriving Repr

/-- `Promise.all`: all results, or the first rejection. -/
def sequenceResults {α : Type} : List (Except String α) → Except String (List α)
  | [] => Except.ok []
  | Except.error e :: _ => Except.error e
  | Except.ok a :: rest =>
    match sequenceResults rest with
    | Except.ok as => Except.ok (a :: as)
    | Except.error e => Except.error e

/-- `fetchAll` as a pure function of the per-expiration fetch outcomes. -/
def fetchAll (results : List (Except String RollingResponse)) : FetchState :=
  match sequenceResults results with
  | Except.ok rs => { records := rs, error := none }
  | Except.error e => { records := [], error := some e }

/-! ## Concrete sample data for witnesses -/

/-- A full-match row (band, delta and credit all met) with credit 7. -/
def oppRow1 : OpportunityRow :=
  { option_ticker := "O1", strike_price := 95, last := none,
    put_mid := some 7, credit_pct := some 7,
    volume := some 10, open_interest := some 100,
    meets_band := true, meets_delta := true, meets_credit := true,
    rowType := RowType.opportunity }

/-- A full-match row with the larger credit 8. -/
def oppRow2 : OpportunityRow :=
  { option_ticker := "O2", strike_price := 96, last := none,
    put_mid := some 8, credit_pct := some 8,
    volume := some 20, open_interest := some 200,
    meets_band := true, meets_delta := true, meets_credit := true,
    rowType := RowType.opportunity }

/-- A neighbor-kind row. -/
def neighborRow : OpportunityRow :=
  { option_ticker := "N1", strike_price := 94, last := none,
    credit_pct := some 9,
    volume := some 5, open_interest := some 50,
    meets_band := true, meets_delta := false, meets_credit := true,
    rowType := RowType.neighbor }

/-- A backend record with two full matches and one neighbor. -/
def sampleResponse : RollingResponse :=
  { status := "ok", ticker := "AAPL", expiration_date := "2025-11-28",
    atm_strike := 100, em := 5, spot_approx := 100, lower_band := 95,
    delta_range := (1, 3), credit_pct_range := (7, 20),
    count := 2,
    opportunities := [oppRow1, oppRow2], neighbors := [neighborRow],
    incomplete := [] }

/-- A backend record with all three sequences empty. -/
def emptyResponse : RollingResponse :=
  { status := "ok", ticker := "AAPL", expiration_date := "2025-11-28",
    atm_strike := 100, em := 5, spot_approx := 100, lower_band := 95,
    delta_range := (1, 3), credit_pct_range := (7, 20),
    count := 0,
    opportunities := [], neighbors := [], incomplete := [] }

/-! ## Helper lemmas -/

/-- The first pass never produces `best`: promotion happens only in the
second pass. -/
theorem classifyRow_ne_best (row : OpportunityRow) :
    classifyRow row ≠ Classification.best := by
  unfold classifyRow
  split
  · simp
  · split
    · simp
    · split
      · simp
      · split <;> simp

/-- `promoteOne` only touches `classification`, `score` and `rowClass`. -/
theorem promoteOne_toOpportunityRow (mc : Option ℚ) (r : ClassifiedRow) :
    (promoteOne mc r).toOpportunityRow = r.toOpportunityRow := rfl

/-- Exact condition under which `promoteOne` yields `best`, for rows the
first pass produced (which are never already `best`). -/
theorem promoteOne_classification_eq_best_iff (mc : Option ℚ) (r : ClassifiedRow)
    (h : r.classification ≠ Classification.best) :
    (promoteOne mc r).classification = Classification.best ↔
      r.classification = Classification.opportunity ∧
        ∃ m, mc = some m ∧ r.credit_pct = some m := by
  unfold promoteOne
  by_cases hc : r.classification = Classification.opportunity ∧
      mc ≠ none ∧ r.credit_pct ≠ none ∧ r.credit_pct = mc
  · simp only [if_pos hc]
    obtain ⟨h1, h2, h3, h4⟩ := hc
    rcases hm : mc with _ | m
    · exact absurd hm h2
    · simp only [true_iff]
      exact ⟨h1, m, rfl, by rw [← hm, h4]⟩
  · simp only [if_neg hc]
    constructor
    · intro hb; exact absurd hb h
    · rintro ⟨h1, m, hm, hcp⟩
      exact absurd ⟨h1, by simp [hm], by simp [hcp], by rw [hm, hcp]⟩ hc

/-- When `maxCredit` is `null`, `promoteOne` never changes the
classification. -/
theorem promoteOne_none_classification (r : ClassifiedRow) :
    (promoteOne none r).classification = r.classification := by
  unfold promoteOne
  simp

/-- Membership in the `fullMatches` filter. -/
theorem mem_fullMatches {prelim : List ClassifiedRow} {r : ClassifiedRow} :
    r ∈ fullMatches prelim ↔
      r ∈ prelim ∧ r.classification = Classification.opportunity ∧ r.credit_pct.isSome := by
  simp [fullMatches, List.mem_filter, and_assoc]

/-- The left fold of `max` lands on an element of the folded list. -/
theorem foldl_max_mem (c : ℚ) (cs : List ℚ) :
    cs.foldl max c = c ∨ cs.foldl max c ∈ cs := by
  induction cs generalizing c with
  | nil => exact Or.inl rfl
  | cons hd tl ih =>
    rcases ih (max c hd) with h | h
    · rcases max_choice c hd with hm | hm
      · exact Or.inl (by rw [List.foldl_cons, h, hm])
      · exact Or.inr (by rw [List.foldl_cons, h, hm]; exact List.mem_cons_self _ _)
    · exact Or.inr (List.mem_cons_of_mem _ h)

/-- The left fold of `max` bounds its starting value. -/
theorem le_foldl_max_init (c : ℚ) (cs : List ℚ) : c ≤ cs.foldl max c := by
  induction cs generalizing c with
  | nil => exact le_refl c
  | cons hd tl ih => exact le_trans (le_max_left c hd) (ih (max c hd))

/-- The left fold of `max` bounds every element of the folded list. -/
theorem le_foldl_max_of_mem {x : ℚ} {cs : List ℚ} (c : ℚ) (h : x ∈ cs) :
    x ≤ cs.foldl max c := by
  induction cs generalizing c with
  | nil => cases h
  | cons hd tl ih =>
    rcases List.mem_cons.mp h with h1 | h1
    · subst h1
      exact le_trans (le_max_right c x) (le_foldl_max_init _ tl)
    · exact ih (max c hd) h1

/-- Specification of `maxOfList`: a returned value is a member of the list
and an upper bound of it. -/
theorem maxOfList_spec {l : List ℚ} {m : ℚ} (h : maxOfList l = some m) :
    m ∈ l ∧ ∀ x ∈ l, x ≤ m := by
  cases l with
  | nil => cases h
  | cons c cs =>
    have hm : m = cs.foldl max c := by
      simpa [maxOfList] using h.symm
    subst hm
    constructor
    · rcases foldl_max_mem c cs with h1 | h1
      · rw [h1]; exact List.mem_cons_self _ _
      · exact List.mem_cons_of_mem _ h1
    · intro x hx
      rcases List.mem_cons.mp hx with h1 | h1
      · subst h1; exact le_foldl_max_init _ _
      · exact le_foldl_max_of_mem _ h1

/-- Specification of `maxCredit`: when non-null it is the credit of some
`opportunity`-classified row and bounds every such row's credit. -/
theorem maxCredit_spec {prelim : List ClassifiedRow} {m : ℚ}
    (h : maxCredit prelim = some m) :
    (∃ r ∈ prelim, r.classification = Classification.opportunity ∧ r.credit_pct = some m)
  ∧ (∀ r ∈ prelim, r.classification = Classification.opportunity →
      ∀ c, r.credit_pct = some c → c ≤ m) := by
  obtain ⟨hmem, hub⟩ := maxOfList_spec h
  constructor
  · obtain ⟨r, hr, hrc⟩ := List.mem_map.mp hmem
    obtain ⟨hrp, hcl, hsome⟩ := mem_fullMatches.mp hr
    obtain ⟨v, hv⟩ := Option.isSome_iff_exists.mp hsome
    refine ⟨r, hrp, hcl, ?_⟩
    rw [hv]
    rw [hv] at hrc
    simp at hrc
    rw [hrc]
  · intro r hr hcl c hc
    have hfm : r ∈ fullMatches prelim :=
      mem_fullMatches.mpr ⟨hr, hcl, by simp [hc]⟩
    have : (r.credit_pct.getD 0) ∈ (fullMatches prelim).map (fun r => r.credit_pct.getD 0) :=
      List.mem_map_of_mem _ hfm
    have hle := hub _ this
    simpa [hc] using hle

/-- Rows produced by the first pass are never `best`. -/
theorem prelimRows_ne_best {rows : List OpportunityRow} {r : ClassifiedRow}
    (h : r ∈ prelimRows rows) : r.classification ≠ Classification.best := by
  obtain ⟨row, _, hrow⟩ := List.mem_map.mp h
  rw [← hrow]
  exact classifyRow_ne_best row

/-- `Promise.all` rejects whenever one of the promises rejects. -/
theorem sequenceResults_error_of_mem {α : Type} {results : List (Except String α)}
    {e : String} (h : Except.error e ∈ results) :
    ∃ msg, sequenceResults results = Except.error msg := by
  induction results with
  | nil => cases h
  | cons hd tl ih =>
    cases hd with
    | error msg => exact ⟨msg, rfl⟩
    | ok a =>
      rcases List.mem_cons.mp h with h1 | h1
      · cases h1
      · obtain ⟨msg, hmsg⟩ := ih h1
        exact ⟨msg, by simp [sequenceResults, hmsg]⟩

/-- The insertion sort used to model the JS comparator sort is sorted. -/
theorem sortByStrike_pairwise {α : Type} (strike : α → ℚ) (l : List α) :
    (sortByStrike strike l).Pairwise (fun a b => strike a ≤ strike b) := by
  haveI : IsTotal α (fun a b => strike a ≤ strike b) := ⟨fun a b => le_total _ _⟩
  haveI : IsTrans α (fun a b => strike a ≤ strike b) := ⟨fun a b c => le_trans⟩
  exact List.sorted_insertionSort _ l

/-! ## Claim theorems -/

/-- C1: in the display pipeline, `rowsWithScore` maps `promoteOne maxCredit`
over the first-pass rows; if no row is classified `opportunity` no row is
promoted to `best`; a non-null `maxCredit` is the credit of some
`opportunity`-classified row and bounds every such row's credit; and a row
comes out `best` exactly when it was classified `opportunity` and its
`credit_pct` equals `maxCredit` exactly (so ties all become `best`, and
every `best` row is a full match carrying the maximal credit). -/
theorem best_promotion_spec (rows : List OpportunityRow) :
    rowsWithScore (prelimRows rows)
        = (prelimRows rows).map (promoteOne (maxCredit (prelimRows rows)))
  ∧ ((∀ r ∈ prelimRows rows, r.classification ≠ Classification.opportunity) →
      ∀ r ∈ rowsWithScore (prelimRows rows), r.classification ≠ Classification.best)
  ∧ (∀ m : ℚ, maxCredit (prelimRows rows) = some m →
      (∃ r ∈ prelimRows rows,
          r.classification = Classification.opportunity ∧ r.credit_pct = some m)
    ∧ (∀ r ∈ prelimRows rows, r.classification = Classification.opportunity →
        ∀ c, r.credit_pct = some c → c ≤ m))
  ∧ (∀ r ∈ prelimRows rows,
      ((promoteOne (maxCredit (prelimRows rows)) r).classification = Classification.best ↔
        r.classification = Classification.opportunity ∧
          ∃ m, maxCredit (prelimRows rows) = some m ∧ r.credit_pct = some m)) := by
  refine ⟨rfl, ?_, ?_, ?_⟩
  · intro hno r hr
    obtain ⟨r0, hr0, hpr⟩ := List.mem_map.mp hr
    rw [← hpr]
    intro hb
    have hbest := (promoteOne_classification_eq_best_iff _ _ (prelimRows_ne_best hr0)).mp hb
    exact hno r0 hr0 hbest.1
  · intro m hm
    exact maxCredit_spec hm
  · intro r hr
    exact promoteOne_classification_eq_best_iff _ _ (prelimRows_ne_best hr)

/-- Witness for C1: with two full matches of credit 7 and 8, the
larger-credit row is promoted to `best`. -/
theorem best_promotion_spec_witness :
    (promoteOne (maxCredit (prelimRows [oppRow1, oppRow2]))
        { toOpportunityRow := oppRow2, classification := classifyRow oppRow2,
          score := "", rowClass := "" }).classification = Classification.best := by
  have h := (best_promotion_spec [oppRow1, oppRow2]).2.2.2
  refine (h _ ?_).mpr ?_
  · decide
  · exact ⟨by decide, 8, by decide, by decide⟩

/-- C2: the first pass maps every `neighbor`-kind row to classification
`neighbor`, and also forces any row with `meets_band = false` to
`neighbor`. -/
theorem classifyRow_neighbor_spec (row : OpportunityRow) :
    (row.rowType = RowType.neighbor → classifyRow row = Classification.neighbor)
  ∧ (row.meets_band = false → classifyRow row = Classification.neighbor) := by
  constructor
  · intro h
    simp [classifyRow, h]
  · intro h
    by_cases ht : row.rowType = RowType.neighbor <;> simp [classifyRow, h, ht]

/-- Witness for C2 at a concrete neighbor row. -/
theorem classifyRow_neighbor_spec_witness :
    classifyRow neighborRow = Classification.neighbor :=
  (classifyRow_neighbor_spec neighborRow).1 (by decide)

/-- C3: for an `opportunity`-kind row inside the band, both of delta/credit
met gives `opportunity`, exactly one gives `candidate_strong`, neither
gives `candidate`. -/
theorem classifyRow_opportunity_spec (row : OpportunityRow)
    (ht : row.rowType = RowType.opportunity) (hb : row.meets_band = true) :
    (row.meets_delta = true → row.meets_credit = true →
        classifyRow row = Classification.opportunity)
  ∧ ((row.meets_delta != row.meets_credit) = true →
        classifyRow row = Classification.candidate_strong)
  ∧ (row.meets_delta = false → row.meets_credit = false →
        classifyRow row = Classification.candidate) := by
  cases hd : row.meets_delta <;> cases hc : row.meets_credit <;>
    simp [classifyRow, ht, hb, hd, hc]

/-- Witness for C3 at a concrete full-match row. -/
theorem classifyRow_opportunity_spec_witness :
    classifyRow oppRow1 = Classification.opportunity :=
  (classifyRow_opportunity_spec oppRow1 (by decide) (by decide)).1 (by decide) (by decide)

/-- C4: the score symbol is `★` exactly for `best`, `✓` exactly for
`opportunity`, and the empty cell exactly for `candidate_strong`,
`candidate` and `neighbor`. -/
theorem scoreForClassification_spec (c : Classification) :
    (scoreForClassification c = "★" ↔ c = Classification.best)
  ∧ (scoreForClassification c = "✓" ↔ c = Classification.opportunity)
  ∧ (scoreForClassification c = "" ↔
      (c = Classification.candidate_strong ∨ c = Classification.candidate ∨
        c = Classification.neighbor)) := by
  cases c <;> exact ⟨by decide, by decide, by decide⟩

/-- C5: on a base string that parses as a positive `YYYY-MM-DD` triple,
`buildExpirationList` is the `count`-element list of UTC calendar dates
stepping 7 days per step; in particular
`buildExpirationList "2025-11-28" 3 = ["2025-11-28", "2025-12-05", "2025-12-12"]`. -/
theorem buildExpirationList_spec :
    (∀ (base : String) (y m d count : ℕ),
        parseBase base = some (y, m, d) →
        buildExpirationList base count
          = (List.range count).map
              (fun (i : ℕ) => formatUTCDate (epochDays y m d + 7 * (i : ℤ))))
  ∧ buildExpirationList "2025-11-28" 3 = ["2025-11-28", "2025-12-05", "2025-12-12"] := by
  constructor
  · intro base y m d count h
    simp [buildExpirationList, h]
  · decide

/-- Witness for C5 at the base date `2025-11-28`. -/
theorem buildExpirationList_spec_witness :
    buildExpirationList "2025-11-28" 3
      = (List.range 3).map (fun (i : ℕ) => formatUTCDate (epochDays 2025 11 28 + 7 * (i : ℤ))) :=
  buildExpirationList_spec.1 "2025-11-28" 2025 11 28 3 (by decide)

/-- C6: if any one expiration's fetch fails, the stored record list is
emptied and an error is surfaced — no partial per-expiration results
survive, even when other expirations fetched successfully. -/
theorem fetchAll_all_or_nothing (results : List (Except String RollingResponse))
    (e : String) (h : Except.error e ∈ results) :
    (fetchAll results).records = [] ∧ (fetchAll results).error.isSome = true := by
  obtain ⟨msg, hmsg⟩ := sequenceResults_error_of_mem h
  simp [fetchAll, hmsg]

/-- Witness for C6: one successful and one failed expiration. -/
theorem fetchAll_all_or_nothing_witness :
    (fetchAll [Except.ok sampleResponse, Except.error "HTTP 500"]).records = []
  ∧ (fetchAll [Except.ok sampleResponse, Except.error "HTTP 500"]).error.isSome = true :=
  fetchAll_all_or_nothing _ "HTTP 500" (by simp)

/-- C7: the display stage is total: an all-empty record yields empty main
and incomplete tables (never an error value), and an empty set of full
matches makes `maxCredit` null and leaves every classification
unpromoted. -/
theorem displayPipeline_total :
    (∀ (data : RollingResponse) (showNeighbors : Bool),
        data.opportunities = [] → data.neighbors = [] → data.incomplete = [] →
        tableRows data showNeighbors = [] ∧ incompleteSorted data = [])
  ∧ (∀ prelim : List ClassifiedRow, fullMatches prelim = [] →
        maxCredit prelim = none ∧
        (rowsWithScore prelim).map (fun r => r.classification)
          = prelim.map (fun r => r.classification)) := by
  constructor
  · intro data showNeighbors h1 h2 h3
    constructor
    · cases showNeighbors <;>
        simp [tableRows, baseRows, sortByStrike, prelimRows, rowsWithScore,
          maxCredit, fullMatches, maxOfList, h1, h2]
    · simp [incompleteSorted, sortByStrike, h3]
  · intro prelim hfm
    have hmc : maxCredit prelim = none := by simp [maxCredit, hfm, maxOfList]
    refine ⟨hmc, ?_⟩
    rw [rowsWithScore, hmc, List.map_map]
    exact List.map_congr_left (fun r _ => promoteOne_none_classification r)

/-- Witness for C7 at the all-empty record. -/
theorem displayPipeline_total_witness :
    tableRows emptyResponse true = [] ∧ incompleteSorted emptyResponse = [] :=
  displayPipeline_total.1 emptyResponse true rfl rfl rfl

/-- C8: within one expiration, the merged opportunities-plus-neighbors
table and the incomplete table are both sorted ascending by strike. -/
theorem display_sorted_by_strike (data : RollingResponse) (showNeighbors : Bool) :
    (tableRows data showNeighbors).Pairwise (fun a b => a.strike_price ≤ b.strike_price)
  ∧ (incompleteSorted data).Pairwise (fun a b => a.strike_price ≤ b.strike_price) := by
  constructor
  · unfold tableRows rowsWithScore prelimRows
    rw [List.pairwise_map, List.pairwise_map]
    exact sortByStrike_pairwise _ _
  · exact sortByStrike_pairwise _ _

/-- C9: the classification stage and the expiration-date generator are
deterministic — two runs on equal inputs produce equal outputs, with no
dependency beyond the inputs themselves. -/
theorem pipeline_deterministic
    (r1 r2 : OpportunityRow) (d1 d2 : RollingResponse) (s1 s2 : Bool)
    (c1 c2 : Classification) (b1 b2 : String) (n1 n2 : ℕ)
    (hr : r1 = r2) (hd : d1 = d2) (hs : s1 = s2) (hc : c1 = c2)
    (hb : b1 = b2) (hn : n1 = n2) :
    classifyRow r1 = classifyRow r2
  ∧ tableRows d1 s1 = tableRows d2 s2
  ∧ scoreForClassification c1 = scoreForClassification c2
  ∧ buildExpirationList b1 n1 = buildExpirationList b2 n2 := by
  subst hr; subst hd; subst hs; subst hc; subst hb; subst hn
  exact ⟨rfl, rfl, rfl, rfl⟩

/-- Witness for C9 at concrete inputs. -/
theorem pipeline_deterministic_witness :
    classifyRow oppRow1 = classifyRow oppRow1
  ∧ tableRows sampleResponse true = tableRows sampleResponse true
  ∧ scoreForClassification Classification.best = scoreForClassification Classification.best
  ∧ buildExpirationList "2025-11-28" 3 = buildExpirationList "2025-11-28" 3 :=
  pipeline_deterministic oppRow1 oppRow1 sampleResponse sampleResponse true true
    Classification.best Classification.best "2025-11-28" "2025-11-28" 3 3
    rfl rfl rfl rfl rfl rfl

/-- C10: `buildExpirationList` always returns exactly `n` strings and never
throws, and on a base that does not parse (wrong number of `-`-separated
parts, or a component that is not a positive number — i.e. `0` or `NaN`;
an infinite component is a positive number and yields `"NaN-NaN-NaN"`
dates instead, see `infinityBase`) it returns the base repeated `n` times
unchanged. -/
theorem buildExpirationList_total (base : String) (n : ℕ) :
    (buildExpirationList base n).length = n
  ∧ (parseBase base = none → infinityBase base = false →
      buildExpirationList base n = List.replicate n base) := by
  constructor
  · cases h : parseBase base with
    | none => cases hi : infinityBase base <;> simp [buildExpirationList, h, hi]
    | some t =>
      obtain ⟨y, m, d⟩ := t
      unfold buildExpirationList
      rw [h]
      show ((List.range n).map (fun (i : ℕ) => formatUTCDate (epochDays y m d + 7 * (i : ℤ)))).length = n
      rw [List.length_map, List.length_range]
  · intro h hi
    simp [buildExpirationList, h, hi]

/-- Witness for C10 at a non-parsing base string. -/
theorem buildExpirationList_total_witness :
    (buildExpirationList "not-a-date" 2).length = 2
  ∧ buildExpirationList "not-a-date" 2 = List.replicate 2 "not-a-date" :=
  ⟨(buildExpirationList_total "not-a-date" 2).1,
   (buildExpirationList_total "not-a-date" 2).2 (by decide) (by decide)⟩

end PutFinder

